import Mathlib

/-!
Shallow embedding of the Rate_stores backend (Express + SQLite, second server
copy in src/unnamed/part_000, lines 437-1142, together with src/backend/db.js).

The database tables `users`, `stores`, `ratings`, `owner_requests` become lists
of records; `CURRENT_TIMESTAMP` becomes an explicit `now : Nat` argument;
`AUTOINCREMENT` ids become explicit counters.  Rating values travel as `Rat`
because the route reads a JSON number and only checks `rating < 1 || rating > 5`;
SQLite stores a non-integral number as-is (the `CHECK (rating BETWEEN 1 AND 5)`
constraint is a range check, not an integrality check).

`db.js` opens the SQLite database without `PRAGMA foreign_keys = ON`, so the
`FOREIGN KEY` clauses of the schema are not enforced at run time; the embedding
therefore performs no foreign-key checks on insert.  The `UNIQUE` constraints
(`UNIQUE (user_id, store_id)` on ratings, `UNIQUE (user_id)` on owner_requests)
are enforced, since SQLite always enforces unique indexes: a violating insert
rejects, which the route surfaces through its catch-all as HTTP 500.
-/

namespace RateStores

/-- `role TEXT CHECK (role IN ('admin','normal','owner'))`. -/
inductive Role
  | admin
  | normal
  | owner
  deriving DecidableEq, Repr

/-- `status TEXT CHECK (status IN ('pending','approved','rejected'))`. -/
inductive ReqStatus
  | pending
  | approved
  | rejected
  deriving DecidableEq, Repr

/-- A row of the `users` table (only the columns the claims need). -/
structure User where
  id : Nat
  role : Role
  deriving DecidableEq, Repr

/-- A row of the `stores` table; `owner_id` is nullable. -/
structure Store where
  id : Nat
  ownerId : Option Nat
  deriving DecidableEq, Repr

/-- A row of the `ratings` table. -/
structure Rating where
  id : Nat
  userId : Nat
  storeId : Nat
  value : Rat
  createdAt : Nat
  updatedAt : Nat
  deriving DecidableEq, Repr

/-- A row of the `owner_requests` table. -/
structure OwnerRequest where
  id : Nat
  userId : Nat
  status : ReqStatus
  reason : Option String
  createdAt : Nat
  updatedAt : Nat
  deriving DecidableEq, Repr

/-- The whole database, plus the autoincrement counters of the two tables the
claims insert into. -/
structure DB where
  users : List User
  stores : List Store
  ratings : List Rating
  ownerRequests : List OwnerRequest
  nextRatingId : Nat
  nextRequestId : Nat
  deriving DecidableEq, Repr

/-- `SELECT id FROM ratings WHERE user_id = ? AND store_id = ?`. -/
def findRating (db : DB) (userId storeId : Nat) : Option Rating :=
  db.ratings.find? (fun r => r.userId == userId && r.storeId == storeId)

/-- `INSERT INTO ratings (user_id, store_id, rating) VALUES (?, ?, ?)` under the
schema constraint `UNIQUE (user_id, store_id)`: the insert errors exactly when a
row with the same key already exists (SQLite raises a UNIQUE-constraint error);
`created_at` and `updated_at` take their `CURRENT_TIMESTAMP` defaults.  No
foreign-key check on `store_id`: db.js never enables the foreign_keys pragma. -/
def insertRating (db : DB) (userId storeId : Nat) (value : Rat) (now : Nat) :
    Except Unit (Rating × DB) :=
  if db.ratings.any (fun r => r.userId == userId && r.storeId == storeId) then
    Except.error ()
  else
    let row : Rating :=
      { id := db.nextRatingId, userId := userId, storeId := storeId,
        value := value, createdAt := now, updatedAt := now }
    Except.ok (row,
      { db with ratings := db.ratings ++ [row], nextRatingId := db.nextRatingId + 1 })

/-- `UPDATE ratings SET rating = ?, updated_at = CURRENT_TIMESTAMP WHERE id = ?`. -/
def updateRatingById (db : DB) (ratingId : Nat) (value : Rat) (now : Nat) : DB :=
  { db with ratings := db.ratings.map (fun r =>
      if r.id == ratingId then { r with value := value, updatedAt := now } else r) }

/-- Outcome of `POST /api/stores/:storeId/rating`, mirroring the route's HTTP
statuses: 201 created, 200 updated, 400 validation, 403, 404, 500. -/
inductive RatingResult
  | created (row : Rating)
  | updated (row : Rating)
  | validationError
  | forbidden
  | notFoundError
  | serverError
  deriving DecidableEq, Repr

/-- `POST /api/stores/:storeId/rating` (part_000 lines 1038-1076).  The route is
behind `authenticate` only — no `requireRole`, no store-existence lookup — so
`caller.role` is never inspected and `storeId` is used only as a value.
The guard is exactly `if (rating < 1 || rating > 5)`.  The update branch returns
the row re-selected by its primary key, i.e. the updated row itself; the insert
branch returns the freshly inserted row; an insert rejected by the UNIQUE
constraint falls into the catch-all (HTTP 500). -/
def submitRating (db : DB) (caller : User) (storeId : Nat) (rating : Rat) (now : Nat) :
    RatingResult × DB :=
  if rating < 1 ∨ rating > 5 then
    (RatingResult.validationError, db)
  else
    match findRating db caller.id storeId with
    | some existing =>
        (RatingResult.updated { existing with value := rating, updatedAt := now },
         updateRatingById db existing.id rating now)
    | none =>
        match insertRating db caller.id storeId rating now with
        | Except.ok (row, db1) => (RatingResult.created row, db1)
        | Except.error _ => (RatingResult.serverError, db)

/-- Outcome of `POST /api/user/request-owner`: 201 created, 400 duplicate
("You already have a pending or approved owner request"), 403 from
`requireRole('normal')`, 500 from the catch-all. -/
inductive UpgradeResult
  | created (row : OwnerRequest)
  | conflictError
  | forbidden
  | serverError
  deriving DecidableEq, Repr

/-- `INSERT INTO owner_requests (user_id, status) VALUES (?, 'pending')` under
`UNIQUE (user_id)`: errors exactly when any request row for that user exists. -/
def insertOwnerRequest (db : DB) (userId now : Nat) :
    Except Unit (OwnerRequest × DB) :=
  if db.ownerRequests.any (fun r => r.userId == userId) then
    Except.error ()
  else
    let row : OwnerRequest :=
      { id := db.nextRequestId, userId := userId, status := ReqStatus.pending,
        reason := none, createdAt := now, updatedAt := now }
    Except.ok (row,
      { db with ownerRequests := db.ownerRequests ++ [row],
                nextRequestId := db.nextRequestId + 1 })

/-- `POST /api/user/request-owner` (part_000 lines 951-981).  Gate:
`requireRole('normal')`.  Existence check: `SELECT * FROM owner_requests WHERE
user_id = ? AND status IN ('pending','approved')` — a `rejected` row does NOT
match, so the route then attempts the insert, whose UNIQUE (user_id) violation
lands in the catch-all (HTTP 500, "Server error"): the catch has no
constraint-specific branch. -/
def requestOwnerUpgrade (db : DB) (caller : User) (now : Nat) :
    UpgradeResult × DB :=
  if caller.role ≠ Role.normal then
    (UpgradeResult.forbidden, db)
  else if db.ownerRequests.any (fun r =>
      r.userId == caller.id &&
        (r.status == ReqStatus.pending || r.status == ReqStatus.approved)) then
    (UpgradeResult.conflictError, db)
  else
    match insertOwnerRequest db caller.id now with
    | Except.ok (row, db1) => (UpgradeResult.created row, db1)
    | Except.error _ => (UpgradeResult.serverError, db)

/-- Outcome of the admin decision routes: 200 ok, 404 "Request not found",
400 "Request is not pending", 403 from `requireRole('admin')`. -/
inductive DecisionResult
  | ok (row : OwnerRequest)
  | notFoundError
  | notPending
  | forbidden
  deriving DecidableEq, Repr

/-- `SELECT * FROM owner_requests WHERE id = ?`. -/
def findRequest (db : DB) (requestId : Nat) : Option OwnerRequest :=
  db.ownerRequests.find? (fun r => r.id == requestId)

/-- `UPDATE users SET role = 'owner' WHERE id = ?`. -/
def setUserRole (db : DB) (userId : Nat) (role : Role) : DB :=
  { db with users := db.users.map (fun u =>
      if u.id == userId then { u with role := role } else u) }

/-- `UPDATE owner_requests SET status = 'approved', updated_at =
CURRENT_TIMESTAMP WHERE id = ?`. -/
def approveRequestRow (db : DB) (requestId now : Nat) : DB :=
  { db with ownerRequests := db.ownerRequests.map (fun r =>
      if r.id == requestId then
        { r with status := ReqStatus.approved, updatedAt := now }
      else r) }

/-- `UPDATE owner_requests SET status = 'rejected', reason = ?, updated_at =
CURRENT_TIMESTAMP WHERE id = ?`. -/
def rejectRequestRow (db : DB) (requestId : Nat) (reason : String) (now : Nat) : DB :=
  { db with ownerRequests := db.ownerRequests.map (fun r =>
      if r.id == requestId then
        { r with status := ReqStatus.rejected, reason := some reason, updatedAt := now }
      else r) }

/-- `POST /api/admin/owner-requests/:requestId/approve` (part_000 lines
869-909).  Gate `requireRole('admin')`; 404 when the request row is absent; 400
when its status is not `pending`; otherwise: set the requesting user's role to
`owner`, set the request's status to `approved`, and return the re-selected
(updated) request row. -/
def approveOwnerRequest (db : DB) (caller : User) (requestId now : Nat) :
    DecisionResult × DB :=
  if caller.role ≠ Role.admin then
    (DecisionResult.forbidden, db)
  else
    match findRequest db requestId with
    | none => (DecisionResult.notFoundError, db)
    | some req =>
        if req.status ≠ ReqStatus.pending then
          (DecisionResult.notPending, db)
        else
          (DecisionResult.ok { req with status := ReqStatus.approved, updatedAt := now },
           approveRequestRow (setUserRole db req.userId Role.owner) requestId now)

/-- JS `reason || 'Request rejected by admin'`: `undefined`, `null` and the
empty string are all falsy, so each of them yields the default text. -/
def reasonOrDefault (reason : Option String) : String :=
  match reason with
  | some s => if s = "" then "Request rejected by admin" else s
  | none => "Request rejected by admin"

/-- `POST /api/admin/owner-requests/:requestId/reject` (part_000 lines
912-947).  Same gating as approve; on a pending request stores
`reason || 'Request rejected by admin'` and status `rejected`. -/
def rejectOwnerRequest (db : DB) (caller : User) (requestId : Nat)
    (reason : Option String) (now : Nat) : DecisionResult × DB :=
  if caller.role ≠ Role.admin then
    (DecisionResult.forbidden, db)
  else
    match findRequest db requestId with
    | none => (DecisionResult.notFoundError, db)
    | some req =>
        if req.status ≠ ReqStatus.pending then
          (DecisionResult.notPending, db)
        else
          (DecisionResult.ok
             { req with status := ReqStatus.rejected,
                        reason := some (reasonOrDefault reason), updatedAt := now },
           rejectRequestRow db requestId (reasonOrDefault reason) now)

/-- The rating values joined to a store:
`LEFT JOIN ratings r ON r.store_id = s.id`. -/
def storeRatingValues (db : DB) (storeId : Nat) : List Rat :=
  (db.ratings.filter (fun r => r.storeId == storeId)).map (fun r => r.value)

/-- `COALESCE(AVG(r.rating), 0)` over a store's ratings, as computed by
`GET /api/admin/stores` (part_000 lines 810-819): the SQL AVG of an empty group
is NULL, which COALESCE turns into 0. -/
def avgRating (db : DB) (storeId : Nat) : Rat :=
  let vs := storeRatingValues db storeId
  if vs.length = 0 then 0 else vs.sum / (vs.length : Rat)

/-- The rating values of all stores owned by `ownerId`:
`FROM stores s JOIN ratings r ON r.store_id = s.id WHERE s.owner_id = u.id`. -/
def ownerRatingValues (db : DB) (ownerId : Nat) : List Rat :=
  (db.ratings.filter (fun r =>
      db.stores.any (fun s => s.id == r.storeId && s.ownerId == some ownerId))).map
    (fun r => r.value)

/-- The `owner_rating` column of `GET /api/admin/users` (part_000 lines
750-763): `CASE WHEN u.role = 'owner' THEN COALESCE((SELECT AVG(r.rating) ...), 0)
END` — `none` (SQL NULL) for non-owner rows, `some` of the coalesced average for
owner rows. -/
def ownerRating (db : DB) (u : User) : Option Rat :=
  if u.role = Role.owner then
    let vs := ownerRatingValues db u.id
    some (if vs.length = 0 then 0 else vs.sum / (vs.length : Rat))
  else none

/-- Outcome of `GET /api/owner/store-raters/:storeId`: 200 with the store's
rating rows, 403, 404 (never produced by this route), 500. -/
inductive RatersResult
  | ok (rows : List Rating)
  | forbidden
  | notFoundError
  deriving DecidableEq, Repr

/-- `GET /api/owner/store-raters/:storeId` (part_000 lines 1099-1122).  Gate
`requireRole('owner')`; ownership check `SELECT id FROM stores WHERE id = ? AND
owner_id = ?` — an empty result (store absent OR owned by someone else) yields
403 "Not your store"; otherwise the store's rating rows are returned. -/
def getStoreRaters (db : DB) (caller : User) (storeId : Nat) : RatersResult :=
  if caller.role ≠ Role.owner then
    RatersResult.forbidden
  else
    match db.stores.find? (fun s => s.id == storeId && s.ownerId == some caller.id) with
    | none => RatersResult.forbidden
    | some _ => RatersResult.ok (db.ratings.filter (fun r => r.storeId == storeId))

/-- One logical `submitRating` request: the caller, the path parameter, the
body value and the clock reading at its write. -/
structure RatingCall where
  caller : User
  storeId : Nat
  value : Rat
  now : Nat
  deriving DecidableEq, Repr

/-- Apply a sequence of `submitRating` calls in order (sequential execution). -/
def applyCalls (db : DB) : List RatingCall → DB
  | [] => db
  | c :: rest => applyCalls (submitRating db c.caller c.storeId c.value c.now).2 rest

/-- At most one ratings row per (userId, storeId) pair. -/
def ratingsUnique (db : DB) : Prop :=
  ∀ u s : Nat,
    (db.ratings.countP (fun r => r.userId == u && r.storeId == s)) ≤ 1

/-- Progress of one in-flight `submitRating` request, split at its two
database accesses: the route first runs the guard and the `SELECT` (read), then
the `UPDATE` or `INSERT` (write).  `readDone` carries what the SELECT saw. -/
inductive OpState
  | start
  | readDone (found : Option Rating)
  | finished (res : RatingResult)
  deriving DecidableEq, Repr

/-- One step of an in-flight `submitRating` against the shared database,
mirroring the route body: guard + SELECT, then conditional UPDATE / INSERT with
the UNIQUE constraint deciding the insert's fate. -/
def opStep (db : DB) (c : RatingCall) : OpState → OpState × DB
  | OpState.start =>
      if c.value < 1 ∨ c.value > 5 then
        (OpState.finished RatingResult.validationError, db)
      else
        (OpState.readDone (findRating db c.caller.id c.storeId), db)
  | OpState.readDone (some existing) =>
      (OpState.finished
         (RatingResult.updated { existing with value := c.value, updatedAt := c.now }),
       updateRatingById db existing.id c.value c.now)
  | OpState.readDone none =>
      match insertRating db c.caller.id c.storeId c.value c.now with
      | Except.ok (row, db1) => (OpState.finished (RatingResult.created row), db1)
      | Except.error _ => (OpState.finished RatingResult.serverError, db)
  | OpState.finished r => (OpState.finished r, db)

/-- Run two concurrent `submitRating` requests under a schedule: `true` steps
the first request, `false` the second; a finished request's step is a no-op. -/
def runSched (c1 c2 : RatingCall) :
    List Bool → DB → OpState → OpState → OpState × OpState × DB
  | [], db, s1, s2 => (s1, s2, db)
  | true :: rest, db, s1, s2 =>
      let p := opStep db c1 s1
      runSched c1 c2 rest p.2 p.1 s2
  | false :: rest, db, s1, s2 =>
      let p := opStep db c2 s2
      runSched c1 c2 rest p.2 s1 p.1

/-- The empty database. -/
def emptyDB : DB := ⟨[], [], [], [], 0, 0⟩

/-- A database with one owner (id 7), one store (id 1, owned by user 9) and two
ratings on store 1 with values 4 and 5. -/
def ratedDB : DB :=
  ⟨[⟨7, Role.owner⟩], [⟨1, some 9⟩],
   [⟨0, 1, 1, 4, 5, 5⟩, ⟨1, 2, 1, 5, 6, 6⟩], [], 2, 0⟩

/-- A database whose single owner request, by user 1 (role normal), is in state
`rejected`. -/
def rejectedDB : DB :=
  ⟨[⟨1, Role.normal⟩], [], [], [⟨0, 1, ReqStatus.rejected, some "no", 1, 2⟩], 0, 1⟩

section Helpers

/-- A value inside [1,5] fails the route's rejection guard. -/
theorem guard_false {v : Rat} (h1 : 1 ≤ v) (h2 : v ≤ 5) : ¬ (v < 1 ∨ v > 5) := by
  rintro (h | h)
  case inl => exact absurd h1 (not_le.mpr h)
  case inr => exact absurd h2 (not_le.mpr h)

/-- When a `SELECT` finds nothing, the `EXISTS`-style check over the same
predicate is false. -/
theorem any_eq_false_of_find?_none {α : Type} {p : α → Bool} {l : List α}
    (h : l.find? p = none) : l.any p = false := by
  rw [List.any_eq_false]
  rw [List.find?_eq_none] at h
  exact fun x hx => h x hx

/-- `find?` commutes with a map that does not disturb the search predicate. -/
theorem find?_map_of_pred {α : Type} (f : α → α) (p : α → Bool)
    (hf : ∀ a, p (f a) = p a) (l : List α) :
    (l.map f).find? p = (l.find? p).map f := by
  induction l with
  | nil => rfl
  | cons a t ih =>
      simp only [List.map_cons, List.find?]
      rw [hf a]
      cases hpa : p a with
      | true => simp
      | false => simpa using ih

/-- `countP` is unchanged by a map that does not disturb the counted
predicate. -/
theorem countP_map_of_pred {α : Type} (f : α → α) (p : α → Bool)
    (hf : ∀ a, p (f a) = p a) (l : List α) :
    (l.map f).countP p = l.countP p := by
  induction l with
  | nil => rfl
  | cons a t ih => rw [List.map_cons, List.countP_cons, List.countP_cons, hf, ih]

end Helpers

/-- A database holding exactly one rating: user 1 rated store 1 with value 4 at
time 5. -/
def dbOneRating : DB := ⟨[], [], [⟨0, 1, 1, 4, 5, 5⟩], [], 1, 0⟩

/-- C3 (amended): for every `submitRating` call whose value is below 1 or above
5 (in particular 0 and 6), the operation returns the validation error and
leaves the state unchanged.  Integrality is NOT checked: the route's only guard
is `if (rating < 1 || rating > 5)`, so non-integer values inside the range,
such as 3.5, are accepted (see the counterexample theorem). -/
theorem submitRating_rejects_out_of_range (db : DB) (caller : User) (storeId : Nat)
    (v : Rat) (now : Nat) (h : v < 1 ∨ v > 5) :
    submitRating db caller storeId v now = (RatingResult.validationError, db) := by
  simp [submitRating, if_pos h]

/-- Witness for the amended C3 at the concrete value 6. -/
theorem submitRating_rejects_out_of_range_witness :
    ((6 : Rat) > 5) ∧
      submitRating emptyDB ⟨1, Role.normal⟩ 1 6 10 =
        (RatingResult.validationError, emptyDB) :=
  ⟨by decide,
   submitRating_rejects_out_of_range emptyDB ⟨1, Role.normal⟩ 1 6 10
     (Or.inr (by decide))⟩

/-- C3 (counterexample): submitting the non-integer value 3.5 = 7/2 is NOT
rejected — it passes the `rating < 1 || rating > 5` guard, is inserted, and the
call reports 201 created; the state gains a row.  This refutes the claim that
every non-integer value yields a `ValidationError` with no mutation. -/
theorem submitRating_accepts_non_integer :
    (submitRating emptyDB ⟨1, Role.normal⟩ 1 ((7 : Rat)/2) 10).1 ≠
        RatingResult.validationError ∧
      (submitRating emptyDB ⟨1, Role.normal⟩ 1 ((7 : Rat)/2) 10).1 =
        RatingResult.created ⟨0, 1, 1, (7 : Rat)/2, 10, 10⟩ ∧
      (submitRating emptyDB ⟨1, Role.normal⟩ 1 ((7 : Rat)/2) 10).2.ratings.length = 1 := by
  have hg : ¬ ((7 : Rat)/2 < 1 ∨ (7 : Rat)/2 > 5) := by norm_num
  have key : submitRating emptyDB ⟨1, Role.normal⟩ 1 ((7 : Rat)/2) 10 =
      (RatingResult.created ⟨0, 1, 1, (7 : Rat)/2, 10, 10⟩,
       ⟨[], [], [⟨0, 1, 1, (7 : Rat)/2, 10, 10⟩], [], 1, 0⟩) := by
    simp [submitRating, if_neg hg, findRating, emptyDB, insertRating]
  rw [key]
  refine ⟨by simp, rfl, rfl⟩

/-- C2: for every in-range value, `submitRating` is the documented upsert.  If
no rating for (userId, storeId) exists, a fresh row is inserted with
`createdAt = updatedAt = now` and the result signals created (201); if one
exists, exactly that row's value is overwritten and its `updatedAt` set to
`now` while `createdAt` (and every other row) is untouched, and the result
signals updated (200).  No hypothesis compares `v` with the stored value: the
update is a genuine write, so resubmitting the same value still bumps
`updatedAt` (the witness exercises exactly that case). -/
theorem submitRating_upsert (db : DB) (caller : User) (storeId : Nat) (v : Rat)
    (now : Nat) (h1 : 1 ≤ v) (h2 : v ≤ 5) :
    (findRating db caller.id storeId = none →
       submitRating db caller storeId v now =
         (RatingResult.created ⟨db.nextRatingId, caller.id, storeId, v, now, now⟩,
          { db with
              ratings := db.ratings ++ [⟨db.nextRatingId, caller.id, storeId, v, now, now⟩],
              nextRatingId := db.nextRatingId + 1 })) ∧
    (∀ e, findRating db caller.id storeId = some e →
       submitRating db caller storeId v now =
         (RatingResult.updated { e with value := v, updatedAt := now },
          { db with ratings := db.ratings.map (fun r =>
              if r.id == e.id then { r with value := v, updatedAt := now } else r) })) := by
  have hg : ¬ (v < 1 ∨ v > 5) := guard_false h1 h2
  constructor
  · intro hnone
    have hins : (db.ratings.any fun r => r.userId == caller.id && r.storeId == storeId) = false :=
      any_eq_false_of_find?_none (by simpa [findRating] using hnone)
    simp [submitRating, if_neg hg, hnone, insertRating, hins]
  · intro e he
    simp [submitRating, if_neg hg, he, updateRatingById]

/-- Witness for C2 in the update branch, resubmitting the very same value 4:
the stored row keeps `createdAt = 5` but its `updatedAt` moves from 5 to 20,
and the result signals updated. -/
theorem submitRating_upsert_witness :
    (submitRating dbOneRating ⟨1, Role.normal⟩ 1 4 20).1 =
        RatingResult.updated ⟨0, 1, 1, 4, 5, 20⟩ ∧
      (submitRating dbOneRating ⟨1, Role.normal⟩ 1 4 20).2.ratings =
        [⟨0, 1, 1, 4, 5, 20⟩] := by
  have h := (submitRating_upsert dbOneRating ⟨1, Role.normal⟩ 1 4 20
      (by decide) (by decide)).2 ⟨0, 1, 1, 4, 5, 5⟩ (by decide)
  rw [h]
  exact ⟨rfl, by decide⟩

/-- C10: `submitRating` is gated only by authentication.  The route never
consults the caller's role (the theorem quantifies over every role, admin and
owner included) and never looks the store up (the theorem quantifies over every
`storeId` with no hypothesis relating it to `db.stores` — in particular ids with
no store record, insertable because db.js never enables SQLite's foreign_keys
pragma).  The outcome is never `Forbidden` and never `NotFoundError`, and for
an in-range value it is always created or updated. -/
theorem submitRating_auth_only (db : DB) (caller : User) (storeId : Nat)
    (v : Rat) (now : Nat) :
    ((submitRating db caller storeId v now).1 ≠ RatingResult.forbidden ∧
       (submitRating db caller storeId v now).1 ≠ RatingResult.notFoundError) ∧
      (1 ≤ v → v ≤ 5 →
        ∃ row, (submitRating db caller storeId v now).1 = RatingResult.created row ∨
          (submitRating db caller storeId v now).1 = RatingResult.updated row) := by
  by_cases hg : (v < 1 ∨ v > 5)
  · simp only [submitRating, if_pos hg]
    exact ⟨⟨by simp, by simp⟩, fun h1 h2 => absurd hg (guard_false h1 h2)⟩
  · cases hf : findRating db caller.id storeId with
    | some e =>
        simp only [submitRating, if_neg hg, hf]
        exact ⟨⟨by simp, by simp⟩,
          fun _ _ => ⟨{ e with value := v, updatedAt := now }, Or.inr rfl⟩⟩
    | none =>
        have hins : (db.ratings.any fun r =>
            r.userId == caller.id && r.storeId == storeId) = false :=
          any_eq_false_of_find?_none (by simpa [findRating] using hf)
        simp only [submitRating, if_neg hg, hf, insertRating, hins,
          Bool.false_eq_true, if_false]
        exact ⟨⟨by simp, by simp⟩,
          fun _ _ => ⟨⟨db.nextRatingId, caller.id, storeId, v, now, now⟩, Or.inl rfl⟩⟩

/-- Witness for C10: an admin rating the nonexistent store 42 on the empty
database still gets a created/updated outcome. -/
theorem submitRating_auth_only_witness :
    (1 : Rat) ≤ 5 ∧ (5 : Rat) ≤ 5 ∧
      ∃ row, (submitRating emptyDB ⟨9, Role.admin⟩ 42 5 10).1 = RatingResult.created row ∨
        (submitRating emptyDB ⟨9, Role.admin⟩ 42 5 10).1 = RatingResult.updated row :=
  ⟨by decide, by decide,
   (submitRating_auth_only emptyDB ⟨9, Role.admin⟩ 42 5 10).2 (by decide) (by decide)⟩

/-- One `submitRating` call preserves the at-most-one-row-per-(user, store)
invariant: the update branch rewrites a row in place (keys untouched) and the
insert branch fires only when the `SELECT` saw no row for the key. -/
theorem submitRating_preserves_unique (db : DB) (caller : User) (storeId : Nat)
    (v : Rat) (now : Nat) (h : ratingsUnique db) :
    ratingsUnique (submitRating db caller storeId v now).2 := by
  by_cases hg : (v < 1 ∨ v > 5)
  · simpa [submitRating, if_pos hg] using h
  · cases hf : findRating db caller.id storeId with
    | some e =>
        simp only [submitRating, if_neg hg, hf]
        intro u s
        have hc : ((db.ratings.map (fun r =>
              if r.id == e.id then { r with value := v, updatedAt := now } else r)).countP
            (fun r => r.userId == u && r.storeId == s)) =
            db.ratings.countP (fun r => r.userId == u && r.storeId == s) :=
          countP_map_of_pred _ _
            (fun a => by by_cases ha : (a.id == e.id) = true <;> simp [ha]) db.ratings
        calc ((updateRatingById db e.id v now).ratings.countP
            (fun r => r.userId == u && r.storeId == s)) =
            db.ratings.countP (fun r => r.userId == u && r.storeId == s) := hc
          _ ≤ 1 := h u s
    | none =>
        have hins : (db.ratings.any fun r =>
            r.userId == caller.id && r.storeId == storeId) = false :=
          any_eq_false_of_find?_none (by simpa [findRating] using hf)
        simp only [submitRating, if_neg hg, hf, insertRating, hins,
          Bool.false_eq_true, if_false]
        intro u s
        rw [List.countP_append]
        by_cases hk : ((⟨db.nextRatingId, caller.id, storeId, v, now, now⟩ : Rating).userId == u &&
            (⟨db.nextRatingId, caller.id, storeId, v, now, now⟩ : Rating).storeId == s) = true
        · have hu : caller.id = u := by
            have := (Bool.and_eq_true .. |>.mp hk).1
            exact beq_iff_eq.mp this
          have hs : storeId = s := by
            have := (Bool.and_eq_true .. |>.mp hk).2
            exact beq_iff_eq.mp this
          have h0 : db.ratings.countP (fun r => r.userId == u && r.storeId == s) = 0 := by
            rw [List.countP_eq_zero]
            intro a ha
            have := List.any_eq_false.mp hins a ha
            rw [← hu, ← hs]
            exact this
          rw [h0]
          simp [List.countP_cons, hk]
        · have h1 : List.countP (fun r => r.userId == u && r.storeId == s)
              [(⟨db.nextRatingId, caller.id, storeId, v, now, now⟩ : Rating)] = 0 := by
            simp only [List.countP_cons, List.countP_nil]
            simp [hk]
          rw [h1]
          simpa using h u s

/-- A whole sequence of `submitRating` calls preserves the invariant. -/
theorem applyCalls_unique (db : DB) (calls : List RatingCall) (h : ratingsUnique db) :
    ratingsUnique (applyCalls db calls) := by
  induction calls generalizing db with
  | nil => exact h
  | cons c rest ih => exact ih _ (submitRating_preserves_unique _ _ _ _ _ h)

/-- C1: starting from any database satisfying the uniqueness invariant (the
empty one in particular), after any sequence of `submitRating` calls at most
one ratings row exists for each (userId, storeId) pair. -/
theorem atMostOneRatingPerPair (db : DB) (calls : List RatingCall) (u s : Nat)
    (h : ratingsUnique db) :
    ((applyCalls db calls).ratings.countP
      (fun r => r.userId == u && r.storeId == s)) ≤ 1 :=
  applyCalls_unique db calls h u s

/-- Witness for C1: two calls by user 1 on store 1 from the empty database
leave at most one row for the pair (1, 1). -/
theorem atMostOneRatingPerPair_witness :
    ((applyCalls emptyDB
        [⟨⟨1, Role.normal⟩, 1, 4, 10⟩, ⟨⟨1, Role.normal⟩, 1, 5, 11⟩]).ratings.countP
      (fun r => r.userId == 1 && r.storeId == 1)) ≤ 1 :=
  atMostOneRatingPerPair emptyDB
    [⟨⟨1, Role.normal⟩, 1, 4, 10⟩, ⟨⟨1, Role.normal⟩, 1, 5, 11⟩] 1 1
    (fun _ _ => Nat.zero_le 1)

/-- C5: a normal user with no owner-request row succeeds exactly once.  The
first call creates a `pending` request; a second call by the same user hits the
"pending or approved" existence check, returns the conflict error (HTTP 400,
"You already have a pending or approved owner request"), and leaves the state
— in particular the stored `pending` request — exactly as it was. -/
theorem requestOwner_once (db : DB) (caller : User) (now now2 : Nat)
    (hrole : caller.role = Role.normal)
    (hnone : ∀ r ∈ db.ownerRequests, r.userId ≠ caller.id) :
    (requestOwnerUpgrade db caller now).1 =
        UpgradeResult.created ⟨db.nextRequestId, caller.id, ReqStatus.pending, none, now, now⟩ ∧
      (requestOwnerUpgrade db caller now).2.ownerRequests =
        db.ownerRequests ++ [⟨db.nextRequestId, caller.id, ReqStatus.pending, none, now, now⟩] ∧
      requestOwnerUpgrade (requestOwnerUpgrade db caller now).2 caller now2 =
        (UpgradeResult.conflictError, (requestOwnerUpgrade db caller now).2) := by
  have hchk : (db.ownerRequests.any fun r => r.userId == caller.id &&
      (r.status == ReqStatus.pending || r.status == ReqStatus.approved)) = false := by
    rw [List.any_eq_false]
    intro r hr hb
    exact hnone r hr (beq_iff_eq.mp (Bool.and_eq_true .. |>.mp hb).1)
  have hins : (db.ownerRequests.any fun r => r.userId == caller.id) = false := by
    rw [List.any_eq_false]
    intro r hr hb
    exact hnone r hr (beq_iff_eq.mp hb)
  have hout : requestOwnerUpgrade db caller now =
      (UpgradeResult.created ⟨db.nextRequestId, caller.id, ReqStatus.pending, none, now, now⟩,
       { db with
           ownerRequests := db.ownerRequests ++
             [⟨db.nextRequestId, caller.id, ReqStatus.pending, none, now, now⟩],
           nextRequestId := db.nextRequestId + 1 }) := by
    simp [requestOwnerUpgrade, hrole, hchk, insertOwnerRequest, hins]
  rw [hout]
  refine ⟨rfl, rfl, ?_⟩
  have hchk2 : (((db.ownerRequests ++
      [(⟨db.nextRequestId, caller.id, ReqStatus.pending, none, now, now⟩ : OwnerRequest)]).any
        fun r => r.userId == caller.id &&
          (r.status == ReqStatus.pending || r.status == ReqStatus.approved)) = true) := by
    rw [List.any_eq_true]
    exact ⟨⟨db.nextRequestId, caller.id, ReqStatus.pending, none, now, now⟩,
      List.mem_append_right _ (List.mem_singleton.mpr rfl), by simp⟩
  simp [requestOwnerUpgrade, hrole, hchk2]

/-- Witness for C5 on the empty database. -/
theorem requestOwner_once_witness :
    (requestOwnerUpgrade emptyDB ⟨1, Role.normal⟩ 3).1 =
        UpgradeResult.created ⟨0, 1, ReqStatus.pending, none, 3, 3⟩ ∧
      requestOwnerUpgrade (requestOwnerUpgrade emptyDB ⟨1, Role.normal⟩ 3).2 ⟨1, Role.normal⟩ 4 =
        (UpgradeResult.conflictError, (requestOwnerUpgrade emptyDB ⟨1, Role.normal⟩ 3).2) := by
  have h := requestOwner_once emptyDB ⟨1, Role.normal⟩ 3 4 rfl (by decide)
  exact ⟨h.1, h.2.2⟩

/-- C6 (amended): when every owner-request row of the caller is `rejected` (and
at least one exists), a further `requestOwnerUpgrade` call creates no second
record — the state is returned unchanged — but the route does NOT translate the
UNIQUE (user_id) violation into the domain conflict error: the rejected row is
invisible to the "pending or approved" check, the insert then violates the
constraint, and the catch-all surfaces a generic server error (HTTP 500). -/
theorem requestOwner_after_rejected (db : DB) (caller : User) (now : Nat)
    (hrole : caller.role = Role.normal)
    (hrej : ∀ r ∈ db.ownerRequests, r.userId = caller.id → r.status = ReqStatus.rejected)
    (r0 : OwnerRequest) (hr0 : r0 ∈ db.ownerRequests) (hr0u : r0.userId = caller.id) :
    requestOwnerUpgrade db caller now = (UpgradeResult.serverError, db) := by
  have hchk : (db.ownerRequests.any fun r => r.userId == caller.id &&
      (r.status == ReqStatus.pending || r.status == ReqStatus.approved)) = false := by
    rw [List.any_eq_false]
    intro r hr hb
    have h1 := (Bool.and_eq_true .. |>.mp hb).1
    have h2 := (Bool.and_eq_true .. |>.mp hb).2
    have hst := hrej r hr (beq_iff_eq.mp h1)
    rw [hst] at h2
    exact absurd h2 (by decide)
  have hins : (db.ownerRequests.any fun r => r.userId == caller.id) = true := by
    rw [List.any_eq_true]
    exact ⟨r0, hr0, by simp [hr0u]⟩
  simp [requestOwnerUpgrade, hrole, hchk, insertOwnerRequest, hins]

/-- Witness for the amended C6 on the concrete rejected-request database. -/
theorem requestOwner_after_rejected_witness :
    requestOwnerUpgrade rejectedDB ⟨1, Role.normal⟩ 5 =
      (UpgradeResult.serverError, rejectedDB) :=
  requestOwner_after_rejected rejectedDB ⟨1, Role.normal⟩ 5 rfl (by decide)
    ⟨0, 1, ReqStatus.rejected, some "no", 1, 2⟩ (by decide) rfl

/-- C6 (counterexample): with a rejected request on file, the call returns the
generic server error, not the domain conflict error the claim promises — the
storage uniqueness violation is surfaced as HTTP 500 "Server error". -/
theorem requestOwner_after_rejected_cex :
    (requestOwnerUpgrade rejectedDB ⟨1, Role.normal⟩ 5).1 = UpgradeResult.serverError ∧
      UpgradeResult.serverError ≠ UpgradeResult.conflictError ∧
      (requestOwnerUpgrade rejectedDB ⟨1, Role.normal⟩ 5).2 = rejectedDB := by decide

/-- A database whose single owner request (id 0, by normal user 1) is pending;
user 2 is an admin. -/
def pendingDB : DB :=
  ⟨[⟨1, Role.normal⟩, ⟨2, Role.admin⟩], [], [], [⟨0, 1, ReqStatus.pending, none, 1, 1⟩], 0, 1⟩

/-- C4: approving a pending request as an admin returns the request with status
`approved`, flips the requesting user's role to `owner`, and any later admin
approve or reject of the same request answers "Request is not pending" and
returns the state untouched. -/
theorem approve_then_decide (db : DB) (admin : User) (requestId now now2 : Nat)
    (req : OwnerRequest) (hadmin : admin.role = Role.admin)
    (hfind : findRequest db requestId = some req)
    (hpend : req.status = ReqStatus.pending) :
    (approveOwnerRequest db admin requestId now).1 =
        DecisionResult.ok { req with status := ReqStatus.approved, updatedAt := now } ∧
      (∀ u ∈ (approveOwnerRequest db admin requestId now).2.users,
         u.id = req.userId → u.role = Role.owner) ∧
      (∀ caller2 : User, caller2.role = Role.admin →
        approveOwnerRequest (approveOwnerRequest db admin requestId now).2 caller2 requestId now2 =
            (DecisionResult.notPending, (approveOwnerRequest db admin requestId now).2) ∧
          ∀ reason, rejectOwnerRequest (approveOwnerRequest db admin requestId now).2 caller2
              requestId reason now2 =
            (DecisionResult.notPending, (approveOwnerRequest db admin requestId now).2)) := by
  have hout : approveOwnerRequest db admin requestId now =
      (DecisionResult.ok { req with status := ReqStatus.approved, updatedAt := now },
       approveRequestRow (setUserRole db req.userId Role.owner) requestId now) := by
    simp [approveOwnerRequest, hadmin, hfind, hpend]
  rw [hout]
  have hfr : findRequest (approveRequestRow (setUserRole db req.userId Role.owner) requestId now)
      requestId = some { req with status := ReqStatus.approved, updatedAt := now } := by
    have hreqid : (req.id == requestId) = true := by
      have h1 := hfind
      unfold findRequest at h1
      have h2 := List.find?_some h1
      simpa using h2
    have hbase : List.find? (fun r => r.id == requestId) db.ownerRequests = some req := by
      simpa [findRequest] using hfind
    have key : List.find? (fun r => r.id == requestId)
        (List.map (fun r => if r.id == requestId then
            { r with status := ReqStatus.approved, updatedAt := now } else r)
          db.ownerRequests) =
        some { req with status := ReqStatus.approved, updatedAt := now } := by
      rw [find?_map_of_pred _ _
        (fun a => by by_cases ha : (a.id == requestId) = true <;> simp [ha])]
      rw [hbase]
      simp only [Option.map_some']
      rw [if_pos hreqid]
    exact key
  refine ⟨rfl, ?_, ?_⟩
  · intro u hu hid
    simp only [approveRequestRow, setUserRole] at hu
    obtain ⟨u0, hu0, rfl⟩ := List.mem_map.mp hu
    by_cases h0 : (u0.id == req.userId) = true
    · simp [h0]
    · exfalso
      rw [if_neg (by simpa using h0)] at hid
      exact (by simpa using h0 : u0.id ≠ req.userId) hid
  · intro caller2 hc2
    constructor
    · simp [approveOwnerRequest, hc2, hfr]
    · intro reason
      simp [rejectOwnerRequest, hc2, hfr]

/-- Witness for C4: approving request 0 of `pendingDB`, then trying again. -/
theorem approve_then_decide_witness :
    (approveOwnerRequest pendingDB ⟨2, Role.admin⟩ 0 10).1 =
        DecisionResult.ok ⟨0, 1, ReqStatus.approved, none, 1, 10⟩ ∧
      approveOwnerRequest (approveOwnerRequest pendingDB ⟨2, Role.admin⟩ 0 10).2
          ⟨2, Role.admin⟩ 0 11 =
        (DecisionResult.notPending, (approveOwnerRequest pendingDB ⟨2, Role.admin⟩ 0 10).2) ∧
      rejectOwnerRequest (approveOwnerRequest pendingDB ⟨2, Role.admin⟩ 0 10).2
          ⟨2, Role.admin⟩ 0 none 11 =
        (DecisionResult.notPending, (approveOwnerRequest pendingDB ⟨2, Role.admin⟩ 0 10).2) := by
  have h := approve_then_decide pendingDB ⟨2, Role.admin⟩ 0 10 11
    ⟨0, 1, ReqStatus.pending, none, 1, 1⟩ rfl (by decide) rfl
  exact ⟨h.1, (h.2.2 ⟨2, Role.admin⟩ rfl).1, (h.2.2 ⟨2, Role.admin⟩ rfl).2 none⟩

/-- C7: the store aggregate is `COALESCE(AVG(...), 0)`: the exact mean of the
store's rating values when any exist and the number 0 — never NULL — when none
do; the owner aggregate column is `some` (non-NULL) for every owner-role row,
equal to the mean over ratings of the owner's stores, and `some 0` when the
owner has no rated stores.  The final conjunct instantiates the spec's example:
a store with rating values 4 and 5 averages to 4.5 = 9/2. -/
theorem aggregate_defaults (db : DB) (storeId : Nat) (u : User) :
    (storeRatingValues db storeId = [] → avgRating db storeId = 0) ∧
      (storeRatingValues db storeId ≠ [] →
        avgRating db storeId =
          (storeRatingValues db storeId).sum / ((storeRatingValues db storeId).length : Rat)) ∧
      (u.role = Role.owner →
        (ownerRating db u).isSome = true ∧
          (ownerRatingValues db u.id = [] → ownerRating db u = some 0) ∧
          (ownerRatingValues db u.id ≠ [] →
            ownerRating db u =
              some ((ownerRatingValues db u.id).sum / ((ownerRatingValues db u.id).length : Rat)))) ∧
      avgRating ratedDB 1 = 9/2 := by
  refine ⟨?_, ?_, ?_, ?_⟩
  · intro h
    simp [avgRating, h]
  · intro h
    have hl : ¬ (storeRatingValues db storeId).length = 0 := by
      intro hh
      exact h (List.length_eq_zero.mp hh)
    simp [avgRating, hl]
  · intro hrole
    refine ⟨by simp [ownerRating, hrole], ?_, ?_⟩
    · intro h
      simp [ownerRating, hrole, h]
    · intro h
      have hl : ¬ (ownerRatingValues db u.id).length = 0 := by
        intro hh
        exact h (List.length_eq_zero.mp hh)
      simp [ownerRating, hrole, hl]
  · simp [avgRating, storeRatingValues, ratedDB]
    norm_num

/-- Witness for C7: empty store averages to 0, an owner with no rated stores
reads `some 0` (not NULL), and the [4,5] store averages to 9/2. -/
theorem aggregate_defaults_witness :
    avgRating emptyDB 3 = 0 ∧ ownerRating ratedDB ⟨7, Role.owner⟩ = some 0 ∧
      avgRating ratedDB 1 = 9/2 := by
  have h1 := aggregate_defaults emptyDB 3 ⟨7, Role.owner⟩
  have h2 := aggregate_defaults ratedDB 1 ⟨7, Role.owner⟩
  exact ⟨h1.1 (by decide), (h2.2.2.1 rfl).2.1 (by decide), h2.2.2.2⟩

/-- C8: an owner-role caller asking for the raters of any store it does not own
— including a `storeId` with no store row at all, for which the hypothesis
holds vacuously — receives `Forbidden` ("Not your store", HTTP 403), never a
not-found outcome and never the rater list: the route's ownership probe
`SELECT id FROM stores WHERE id = ? AND owner_id = ?` cannot distinguish the
two situations. -/
theorem storeRaters_forbidden (db : DB) (caller : User) (storeId : Nat)
    (hrole : caller.role = Role.owner)
    (hnot : ∀ s ∈ db.stores, s.id = storeId → s.ownerId ≠ some caller.id) :
    getStoreRaters db caller storeId = RatersResult.forbidden := by
  have hfind : db.stores.find? (fun s => s.id == storeId && s.ownerId == some caller.id) = none := by
    rw [List.find?_eq_none]
    intro s hs hb
    have h1 := (Bool.and_eq_true .. |>.mp hb).1
    have h2 := (Bool.and_eq_true .. |>.mp hb).2
    exact hnot s hs (beq_iff_eq.mp h1) (beq_iff_eq.mp h2)
  simp [getStoreRaters, hrole, hfind]

/-- Witness for C8: owner 7 probing store 1 (owned by user 9) and the wholly
absent store 99 both get `Forbidden`. -/
theorem storeRaters_forbidden_witness :
    getStoreRaters ratedDB ⟨7, Role.owner⟩ 1 = RatersResult.forbidden ∧
      getStoreRaters ratedDB ⟨7, Role.owner⟩ 99 = RatersResult.forbidden :=
  ⟨storeRaters_forbidden ratedDB ⟨7, Role.owner⟩ 1 rfl (by decide),
   storeRaters_forbidden ratedDB ⟨7, Role.owner⟩ 99 rfl (by decide)⟩

/-- Appending a row whose (userId, storeId) key occurs nowhere in the list
keeps every per-key count at most one. -/
theorem countP_append_single_le (l : List Rating) (row : Rating)
    (hins : (l.any fun r => r.userId == row.userId && r.storeId == row.storeId) = false)
    (h : ∀ u s : Nat, l.countP (fun r => r.userId == u && r.storeId == s) ≤ 1)
    (u s : Nat) :
    (l ++ [row]).countP (fun r => r.userId == u && r.storeId == s) ≤ 1 := by
  rw [List.countP_append]
  by_cases hk : ((row.userId == u && row.storeId == s) = true)
  · have hu := beq_iff_eq.mp (Bool.and_eq_true .. |>.mp hk).1
    have hs := beq_iff_eq.mp (Bool.and_eq_true .. |>.mp hk).2
    have h0 : l.countP (fun r => r.userId == u && r.storeId == s) = 0 := by
      rw [List.countP_eq_zero]
      intro a ha
      have := List.any_eq_false.mp hins a ha
      rw [← hu, ← hs]
      exact this
    rw [h0]
    simp [List.countP_cons, hk]
  · have h1 : List.countP (fun r => r.userId == u && r.storeId == s) [row] = 0 := by
      simp only [List.countP_cons, List.countP_nil]
      simp [hk]
    rw [h1]
    simpa using h u s

/-- One step of an in-flight request preserves the per-key uniqueness
invariant, whatever its phase — even a stale `readDone` snapshot: the write it
triggers is either an in-place update (keys untouched) or an insert that the
UNIQUE constraint itself re-checks against the CURRENT list. -/
theorem opStep_preserves_unique (db : DB) (c : RatingCall) (st : OpState)
    (h : ratingsUnique db) : ratingsUnique (opStep db c st).2 := by
  cases st with
  | start =>
      have : (opStep db c OpState.start).2 = db := by
        simp only [opStep]
        split <;> rfl
      rw [this]
      exact h
  | finished r => exact h
  | readDone found =>
      cases found with
      | some e =>
          intro u s
          have hc : ((db.ratings.map (fun r =>
                if r.id == e.id then { r with value := c.value, updatedAt := c.now } else r)).countP
              (fun r => r.userId == u && r.storeId == s)) =
              db.ratings.countP (fun r => r.userId == u && r.storeId == s) :=
            countP_map_of_pred _ _
              (fun a => by by_cases ha : (a.id == e.id) = true <;> simp [ha]) db.ratings
          calc ((opStep db c (OpState.readDone (some e))).2.ratings.countP
              (fun r => r.userId == u && r.storeId == s)) =
              db.ratings.countP (fun r => r.userId == u && r.storeId == s) := hc
            _ ≤ 1 := h u s
      | none =>
          cases hins : (db.ratings.any fun r =>
              r.userId == c.caller.id && r.storeId == c.storeId) with
          | true =>
              have : (opStep db c (OpState.readDone none)).2 = db := by
                simp [opStep, insertRating, hins]
              rw [this]
              exact h
          | false =>
              have : (opStep db c (OpState.readDone none)).2 =
                  { db with
                      ratings := db.ratings ++
                        [⟨db.nextRatingId, c.caller.id, c.storeId, c.value, c.now, c.now⟩],
                      nextRatingId := db.nextRatingId + 1 } := by
                simp [opStep, insertRating, hins]
              rw [this]
              exact countP_append_single_le db.ratings
                ⟨db.nextRatingId, c.caller.id, c.storeId, c.value, c.now, c.now⟩ hins h

/-- Every interleaving of two in-flight requests preserves the invariant. -/
theorem runSched_preserves_unique (c1 c2 : RatingCall) (sched : List Bool) (db : DB)
    (s1 s2 : OpState) (h : ratingsUnique db) :
    ratingsUnique (runSched c1 c2 sched db s1 s2).2.2 := by
  induction sched generalizing db s1 s2 with
  | nil => exact h
  | cons b rest ih =>
      cases b with
      | true => exact ih _ _ _ (opStep_preserves_unique db c1 s1 h)
      | false => exact ih _ _ _ (opStep_preserves_unique db c2 s2 h)

/-- C9 (amended): under every interleaving of two concurrent `submitRating`
requests for the same (userId, storeId), the final state still has at most one
row for every pair — duplicates are prevented by the storage UNIQUE constraint,
not by the route.  The upsert itself is a find-then-insert sequence, not an
atomic conditional write: in the schedule where both SELECTs run before either
write, the first writer inserts and the second INSERT violates the constraint,
so the loser finishes with the raw storage failure (HTTP 500), not with an
updated result; the surviving value is the first committed write's. -/
theorem concurrent_submit_no_duplicates :
    (∀ (c1 c2 : RatingCall) (sched : List Bool) (db : DB) (s1 s2 : OpState),
       ratingsUnique db → ratingsUnique (runSched c1 c2 sched db s1 s2).2.2) ∧
      runSched ⟨⟨1, Role.normal⟩, 1, 4, 10⟩ ⟨⟨1, Role.normal⟩, 1, 5, 11⟩
          [true, false, true, false] emptyDB OpState.start OpState.start =
        (OpState.finished (RatingResult.created ⟨0, 1, 1, 4, 10, 10⟩),
         OpState.finished RatingResult.serverError,
         ⟨[], [], [⟨0, 1, 1, 4, 10, 10⟩], [], 1, 0⟩) :=
  ⟨runSched_preserves_unique, by decide⟩

/-- Witness for the amended C9: in the racing schedule from the empty database,
the pair (1, 1) ends with at most one row. -/
theorem concurrent_submit_no_duplicates_witness :
    ((runSched ⟨⟨1, Role.normal⟩, 1, 4, 10⟩ ⟨⟨1, Role.normal⟩, 1, 5, 11⟩
        [true, false, true, false] emptyDB OpState.start OpState.start).2.2.ratings.countP
      (fun r => r.userId == 1 && r.storeId == 1)) ≤ 1 :=
  concurrent_submit_no_duplicates.1 ⟨⟨1, Role.normal⟩, 1, 4, 10⟩ ⟨⟨1, Role.normal⟩, 1, 5, 11⟩
    [true, false, true, false] emptyDB OpState.start OpState.start
    (fun _ _ => Nat.zero_le 1) 1 1

/-- C9 (counterexample): the upsert is NOT a single atomic conditional write.
In the interleaving where both SELECTs precede both writes, the second request
finishes with the raw storage failure — whereas under either serial order both
requests succeed (the later one as an update).  The interleaved outcome thus
matches no serial execution, refuting the claimed atomicity, and the value of
the losing write is simply lost rather than committed last. -/
theorem concurrent_submit_cex :
    (runSched ⟨⟨1, Role.normal⟩, 1, 4, 10⟩ ⟨⟨1, Role.normal⟩, 1, 5, 11⟩
        [true, false, true, false] emptyDB OpState.start OpState.start).2.1 =
        OpState.finished RatingResult.serverError ∧
      (submitRating (submitRating emptyDB ⟨1, Role.normal⟩ 1 4 10).2
          ⟨1, Role.normal⟩ 1 5 11).1 = RatingResult.updated ⟨0, 1, 1, 5, 10, 11⟩ ∧
      (submitRating (submitRating emptyDB ⟨1, Role.normal⟩ 1 5 11).2
          ⟨1, Role.normal⟩ 1 4 10).1 = RatingResult.updated ⟨0, 1, 1, 4, 11, 10⟩ ∧
      RatingResult.serverError ≠ RatingResult.updated ⟨0, 1, 1, 5, 10, 11⟩ ∧
      RatingResult.serverError ≠ RatingResult.updated ⟨0, 1, 1, 4, 11, 10⟩ := by
  refine ⟨by decide, by decide, by decide, by decide, by decide⟩

end RateStores
